import Mathlib

/-!
Shallow embedding of the `core` crate of the rustr repository (a Nostr
client engine): JSON values, the subscription manager, the outbox queue,
relay message parsing, the reconnect backoff, and the `tick` control loop,
translated from `src/core/src/{subscription,outbox,relay,types,lib}.rs`
and the mock storage `src/core/src/storage/mock.rs`.

Modelling conventions:
* `i64`/`u32`/`u16` are `Int`/`Nat`; every reachable value in the embedded
  code stays far below the wrap-around bounds, and the one truncating cast
  in the source (`as u16` on an event kind) is written with an explicit
  `% 65536`.
* `serde_json::Value` is the inductive `Json`; a `String` field of the
  source that always holds the `to_string` of a `Value` (the stored
  `filter_json`, the `event_json` of an inbound EVENT frame) is kept in
  parsed form, so the `serde_json::from_str` round-trips in the source
  always succeed in the embedding, as they do on every value the code
  stores.  Object fields are an association list; serde's map ordering is
  immaterial because the embedding only ever looks fields up.
* `HashMap` is an association list with insert-replaces semantics.
* `current_timestamp()` / `Date::now()` is an explicit `now : Int`
  argument (the spec itself prescribes an injectable clock).
* Fallible host calls (`WebSocket::new`, `dyn Storage::save_event`) take
  their outcome as an explicit argument, since the host environment or the
  storage implementation chooses it.
-/

namespace Rustr

/-- `serde_json::Value` (numbers restricted to integers; the embedded code
manipulates only integral numbers). -/
inductive Json where
  | null
  | bool (b : Bool)
  | num (n : Int)
  | str (s : String)
  | arr (elems : List Json)
  | obj (fields : List (String × Json))

/-- Association-list lookup, modelling `HashMap::get`. -/
def alistLookup {α : Type} : List (String × α) → String → Option α
  | [], _ => none
  | (k', v) :: rest, k => if k' = k then some v else alistLookup rest k

/-- Association-list insert, modelling `HashMap::insert` (replaces an
existing binding, otherwise adds one). -/
def alistInsert {α : Type} : List (String × α) → String → α → List (String × α)
  | [], k, v => [(k, v)]
  | (k', v') :: rest, k, v =>
    if k' = k then (k, v) :: rest else (k', v') :: alistInsert rest k v

/-- `Value::as_str`. -/
def Json.asStr : Json → Option String
  | .str s => some s
  | _ => none

/-- `Value::as_bool`. -/
def Json.asBool : Json → Option Bool
  | .bool b => some b
  | _ => none

/-- `Value::as_u64` (some iff the number is a non-negative integer; the
`u64` upper bound never matters for the embedded values). -/
def Json.asU64 : Json → Option Nat
  | .num n => if 0 ≤ n then some n.toNat else none
  | _ => none

/-- `Value::as_i64`. -/
def Json.asI64 : Json → Option Int
  | .num n => some n
  | _ => none

/-- serde_json's `value[key]` read access on a shared reference: the field
of an object, `Null` for a missing key or a non-object. -/
def Json.getField (j : Json) (k : String) : Json :=
  match j with
  | .obj fields => (alistLookup fields k).getD .null
  | _ => .null

/-- serde_json's index assignment `value[key] = v`: replaces or inserts the
key on an object, turns `null` into a one-field object; on any other value
the source panics, which is unreachable for the filters this code stores
(they are always objects), modelled as the identity. -/
def Json.setField : Json → String → Json → Json
  | .obj fields, k, v => .obj (alistInsert fields k v)
  | .null, k, v => .obj [(k, v)]
  | j, _, _ => j

/-- Rust `str::starts_with` for a string pattern. -/
def strStartsWith (s pat : String) : Bool :=
  pat.data.isPrefixOf s.data

/-- Rust `&s[n..]` / the tail after a stripped ASCII pattern of length `n`
(character-level drop; every pattern in the embedded code is ASCII). -/
def strDrop (s : String) (n : Nat) : String :=
  ⟨s.data.drop n⟩

/-- Rust `split(':').next().unwrap-ish` after a split: the longest initial
segment of characters satisfying `p`. -/
def strTakeWhile (s : String) (p : Char → Bool) : String :=
  ⟨s.data.takeWhile p⟩

/-- Substring containment on character lists (`str::contains` for a string
pattern; the empty pattern is contained in everything). -/
def listContainsSub (pat : List Char) : List Char → Bool
  | [] => pat.isEmpty
  | c :: rest => pat.isPrefixOf (c :: rest) || listContainsSub pat rest

/-- Rust `str::contains` for a string pattern. -/
def strContains (s pat : String) : Bool :=
  listContainsSub pat.data s.data

/-- `types.rs`: the time window of a subscription. -/
structure TimeWindow where
  since : Int
  untilTs : Option Int
  deriving DecidableEq

/-- `TimeWindow::new`. -/
def TimeWindow.new (since : Int) : TimeWindow :=
  { since := since, untilTs := none }

/-- `TimeWindow::extend`: moves `since` backwards. -/
def TimeWindow.extend (w : TimeWindow) (additional_seconds : Int) : TimeWindow :=
  { w with since := w.since - additional_seconds }

/-- `subscription.rs`: the state of one active subscription. -/
structure ActiveSub where
  sub_id : String
  filter_json : Json
  eose_count : Nat
  last_extended_at : Int

/-- `subscription.rs`: the subscription manager. -/
structure SubscriptionManager where
  active_subs : List (String × ActiveSub)
  channel_windows : List (String × TimeWindow)
  dm_windows : List (String × TimeWindow)
  self_pubkey : Option String

/-- `SubscriptionManager::new`. -/
def SubscriptionManager.new : SubscriptionManager :=
  { active_subs := [], channel_windows := [], dm_windows := [], self_pubkey := none }

/-- The filter object built by `open_channel`:
`{ "kinds": [42], "#e": [channel_id], "since": since }`. -/
def channelFilter (channel_id : String) (since : Int) : Json :=
  .obj [("kinds", .arr [.num 42]), ("#e", .arr [.str channel_id]), ("since", .num since)]

/-- `SubscriptionManager::open_channel` (the clock read `current_timestamp()`
is the explicit `now`); returns the updated manager and the REQ pairs. -/
def SubscriptionManager.open_channel (m : SubscriptionManager) (channel_id : String)
    (now : Int) : SubscriptionManager × List (String × Json) :=
  let since := now - 600
  let window := TimeWindow.new since
  let m := { m with channel_windows := alistInsert m.channel_windows channel_id window }
  let sub_id := "ch:" ++ channel_id
  let filter := channelFilter channel_id since
  let m :=
    { m with
      active_subs :=
        alistInsert m.active_subs sub_id
          ({ sub_id := sub_id, filter_json := filter, eose_count := 0,
             last_extended_at := now }) }
  (m, [(sub_id, filter)])

/-- The outgoing-half DM filter built by `open_dm`. -/
def dmFilterOut (peer self_pubkey : String) (since : Int) : Json :=
  .obj [("kinds", .arr [.num 4]), ("authors", .arr [.str self_pubkey]),
        ("#p", .arr [.str peer]), ("since", .num since)]

/-- The incoming-half DM filter built by `open_dm`. -/
def dmFilterIn (peer self_pubkey : String) (since : Int) : Json :=
  .obj [("kinds", .arr [.num 4]), ("authors", .arr [.str peer]),
        ("#p", .arr [.str self_pubkey]), ("since", .num since)]

/-- `SubscriptionManager::open_dm`: registers one shared `TimeWindow` keyed
by `peer` and the two subscriptions `dm:{peer}` and `dm:{peer}:r`. -/
def SubscriptionManager.open_dm (m : SubscriptionManager) (peer self_pubkey : String)
    (now : Int) : SubscriptionManager × List (String × Json) :=
  let since := now - 600
  let window := TimeWindow.new since
  let m := { m with dm_windows := alistInsert m.dm_windows peer window }
  let sub_id := "dm:" ++ peer
  let filter := dmFilterOut peer self_pubkey since
  let m :=
    { m with
      active_subs :=
        alistInsert m.active_subs sub_id
          ({ sub_id := sub_id, filter_json := filter, eose_count := 0,
             last_extended_at := now }) }
  let sub_id2 := "dm:" ++ peer ++ ":r"
  let filter2 := dmFilterIn peer self_pubkey since
  let m :=
    { m with
      active_subs :=
        alistInsert m.active_subs sub_id2
          ({ sub_id := sub_id2, filter_json := filter2, eose_count := 0,
             last_extended_at := now }) }
  (m, [(sub_id, filter), (sub_id2, filter2)])

/-- `SubscriptionManager::mark_eose`: increments `eose_count` of a tracked
subscription, no-op otherwise. -/
def SubscriptionManager.mark_eose (m : SubscriptionManager) (sub_id : String) :
    SubscriptionManager :=
  match alistLookup m.active_subs sub_id with
  | some sub =>
    { m with active_subs :=
        alistInsert m.active_subs sub_id ({ sub with eose_count := sub.eose_count + 1 }) }
  | none => m

/-- `SubscriptionManager::should_extend_window`: a tracked subscription may
still widen while `eose_count < 4`. -/
def SubscriptionManager.should_extend_window (m : SubscriptionManager) (sub_id : String) :
    Bool :=
  match alistLookup m.active_subs sub_id with
  | some sub => sub.eose_count < 4
  | none => false

/-- `SubscriptionManager::needs_extension` (delegates to
`should_extend_window`). -/
def SubscriptionManager.needs_extension (m : SubscriptionManager) (sub_id : String) : Bool :=
  m.should_extend_window sub_id

/-- The widening schedule of `extend_window`: `1h -> 1d -> 7d -> 30d`,
keyed by the current `eose_count`; anything else aborts with `None`. -/
def extensionSeconds : Nat → Option Int
  | 1 => some 3600
  | 2 => some 86400
  | 3 => some 604800
  | 4 => some 2592000
  | _ => none

/-- `SubscriptionManager::create_extended_filter`: re-parses the stored
filter (always succeeds here, see the module comment), overwrites its
`since`, stamps `last_extended_at`, and returns the REQ pair. -/
def SubscriptionManager.create_extended_filter (m : SubscriptionManager) (sub_id : String)
    (new_since : Int) (now : Int) : Option (SubscriptionManager × List (String × Json)) :=
  match alistLookup m.active_subs sub_id with
  | none => none
  | some sub =>
    let new_filter := sub.filter_json.setField "since" (.num new_since)
    let sub := { sub with filter_json := new_filter, last_extended_at := now }
    some ({ m with active_subs := alistInsert m.active_subs sub_id sub },
          [(sub_id, new_filter)])

/-- `SubscriptionManager::extend_window`: picks the widening amount from
`eose_count`, then updates the channel window when the sub id starts with
`"channel:"` or the DM window keyed by the peer extracted from a
`"dm:"`-prefixed sub id, and rewrites the stored filter. -/
def SubscriptionManager.extend_window (m : SubscriptionManager) (sub_id : String)
    (now : Int) : Option (SubscriptionManager × List (String × Json)) :=
  match alistLookup m.active_subs sub_id with
  | none => none
  | some sub =>
    match extensionSeconds sub.eose_count with
    | none => none
    | some additional =>
      let updated : Option (SubscriptionManager × Int) :=
        if strStartsWith sub_id "channel:" then
          let channel_id := strDrop sub_id 8
          match alistLookup m.channel_windows channel_id with
          | some w =>
            let w := w.extend additional
            some ({ m with channel_windows := alistInsert m.channel_windows channel_id w },
                  w.since)
          | none => none
        else if strStartsWith sub_id "dm:" then
          let peer := strTakeWhile (strDrop sub_id 3) (fun c => c != ':')
          match alistLookup m.dm_windows peer with
          | some w =>
            let w := w.extend additional
            some ({ m with dm_windows := alistInsert m.dm_windows peer w }, w.since)
          | none => none
        else none
      match updated with
      | some (m', since) => m'.create_extended_filter sub_id since now
      | none => none

/-- `error.rs`: the error type of the core crate. -/
inductive CoreError where
  | JsError (msg : String)
  | StorageError (msg : String)
  | RelayError (msg : String)
  | SignerError (msg : String)
  | ParseError (msg : String)
  | Other (msg : String)
  deriving DecidableEq

/-- `types.rs`: the status of an outbox item. -/
inductive OutboxStatus where
  | Queued
  | Sent
  | Ok
  | Error
  deriving DecidableEq

/-- `types.rs`: one item of the send queue (`event_json` is kept as the
opaque serialised string, exactly as the source stores it). -/
structure OutboxItem where
  req_id : String
  event_json : String
  status : OutboxStatus
  last_try_at : Int
  retry_count : Nat
  error : Option String
  deriving DecidableEq

/-- `MockStorage::update_outbox_status`: sets the status of the first
stored item with the given `req_id` (the table keeps the item; nothing is
ever deleted from it). -/
def update_outbox_status : List OutboxItem → String → OutboxStatus → List OutboxItem
  | [], _, _ => []
  | item :: rest, req_id, status =>
    if item.req_id = req_id then { item with status := status } :: rest
    else item :: update_outbox_status rest req_id status

/-- `MockStorage::get_pending_outbox`: the stored items whose status is
`Queued` or `Sent`. -/
def get_pending_outbox (outbox : List OutboxItem) : List OutboxItem :=
  outbox.filter (fun i => i.status == OutboxStatus.Queued || i.status == OutboxStatus.Sent)

/-- `outbox.rs` constant `MAX_RETRY_COUNT`. -/
def MAX_RETRY_COUNT : Nat := 5

/-- `outbox.rs` constant `RETRY_DELAY_SECONDS`. -/
def RETRY_DELAY_SECONDS : Int := 5

/-- `OutboxQueue::dequeue`: peeks at the front of the in-memory queue and
returns its `event_json` iff its status is `Queued`; the queue itself is
left untouched (the `Result` wrapper of the source never carries an
error). -/
def OutboxQueue.dequeue : List OutboxItem → Option String
  | [] => none
  | item :: _ => if item.status == OutboxStatus.Queued then some item.event_json else none

/-- The `found_req_id` search of `OutboxQueue::on_ok`: the `req_id` of the
first pending item whose `event_json` contains `event_id` as a substring. -/
def findReqId : List OutboxItem → String → Option String
  | [], _ => none
  | item :: rest, event_id =>
    if strContains item.event_json event_id then some item.req_id
    else findReqId rest event_id

/-- The rejected branch of `on_ok`: marks the first pending item with the
given `req_id` as `Error`, recording the relay message. -/
def markRejected : List OutboxItem → String → String → List OutboxItem
  | [], _, _ => []
  | item :: rest, req_id, message =>
    if item.req_id = req_id then
      { item with status := OutboxStatus.Error, error := some message } :: rest
    else item :: markRejected rest req_id message

/-- `OutboxQueue::on_ok` over the in-memory queue and the storage outbox
table (per `MockStorage`): on a positive OK the matching item is dropped
from the queue and its stored status set to `Ok`; on a negative OK it is
marked `Error` in both. -/
def OutboxQueue.on_ok (pending storage : List OutboxItem) (event_id : String)
    (accepted : Bool) (message : String) : List OutboxItem × List OutboxItem :=
  match findReqId pending event_id with
  | none => (pending, storage)
  | some req_id =>
    if accepted then
      (pending.filter (fun item => item.req_id != req_id),
       update_outbox_status storage req_id OutboxStatus.Ok)
    else
      (markRejected pending req_id message,
       update_outbox_status storage req_id OutboxStatus.Error)

/-- One relay as `OutboxQueue::process` observes it: whether
`is_connected()` holds and whether `send` on it returns `Ok` this round. -/
structure RelayEndpoint where
  connected : Bool
  send_ok : Bool
  deriving DecidableEq

/-- The `sent_count` loop of `process`: the number of connected relays
whose `send` succeeded. -/
def sentCount (relays : List RelayEndpoint) : Nat :=
  (relays.filter (fun r => r.connected && r.send_ok)).length

/-- The `while let Some(item) = self.pending.pop_front()` loop of
`OutboxQueue::process`, carrying the `to_retry` accumulator and the
storage outbox table; returns the final `to_retry` (which becomes the new
pending queue) and the storage table. -/
def processLoop (now : Int) (relays : List RelayEndpoint) :
    List OutboxItem → List OutboxItem → List OutboxItem →
    List OutboxItem × List OutboxItem
  | [], to_retry, storage => (to_retry, storage)
  | item :: rest, to_retry, storage =>
    if item.status == OutboxStatus.Sent && now - item.last_try_at < RETRY_DELAY_SECONDS then
      processLoop now relays rest (to_retry ++ [item]) storage
    else if MAX_RETRY_COUNT ≤ item.retry_count then
      processLoop now relays rest to_retry
        (update_outbox_status storage item.req_id OutboxStatus.Error)
    else if 0 < sentCount relays then
      let item :=
        { item with status := OutboxStatus.Sent, last_try_at := now,
                    retry_count := item.retry_count + 1 }
      processLoop now relays rest (to_retry ++ [item])
        (update_outbox_status storage item.req_id OutboxStatus.Sent)
    else
      processLoop now relays rest (to_retry ++ [item]) storage

/-- `OutboxQueue::process`: drains the pending queue through `processLoop`
and re-installs the deferred items as the new pending queue. -/
def OutboxQueue.process (now : Int) (relays : List RelayEndpoint)
    (pending storage : List OutboxItem) : List OutboxItem × List OutboxItem :=
  processLoop now relays pending [] storage

/-- `relay.rs`: an inbound relay frame after parsing (the event payload of
an EVENT frame is kept in parsed form, see the module comment). -/
inductive RelayMessage where
  | Event (sub_id : String) (event_json : Json)
  | Eose (sub_id : String)
  | Ok (event_id : String) (accepted : Bool) (message : String)
  | Notice (message : String)

/-- `RelayMessage::parse` on the JSON value the frame text decodes to (the
`serde_json::from_str::<Vec<Value>>` step of the source rejects anything
that is not an array). -/
def RelayMessage.parse (j : Json) : Except CoreError RelayMessage :=
  match j with
  | .arr [] => .error (.ParseError "Empty message array")
  | .arr (first :: rest) =>
    match first.asStr with
    | none => .error (.ParseError "Message type not a string")
    | some t =>
      if t = "EVENT" then
        match rest with
        | sid :: ev :: _ =>
          match sid.asStr with
          | some sub_id => .ok (.Event sub_id ev)
          | none => .error (.ParseError "sub_id not a string")
        | _ => .error (.ParseError "Invalid EVENT message")
      else if t = "EOSE" then
        match rest with
        | sid :: _ =>
          match sid.asStr with
          | some sub_id => .ok (.Eose sub_id)
          | none => .error (.ParseError "sub_id not a string")
        | _ => .error (.ParseError "Invalid EOSE message")
      else if t = "OK" then
        match rest with
        | eid :: acc :: msg :: _ =>
          match eid.asStr with
          | none => .error (.ParseError "event_id not a string")
          | some event_id =>
            match acc.asBool with
            | none => .error (.ParseError "accepted not a bool")
            | some accepted => .ok (.Ok event_id accepted (msg.asStr.getD ""))
        | _ => .error (.ParseError "Invalid OK message")
      else if t = "NOTICE" then
        match rest with
        | m :: _ =>
          match m.asStr with
          | some message => .ok (.Notice message)
          | none => .error (.ParseError "message not a string")
        | _ => .error (.ParseError "Invalid NOTICE message")
      else .error (.ParseError ("Unknown message type: " ++ t))
  | _ => .error (.ParseError "message not a JSON array")

/-- `relay.rs`: the reconnect backoff state (`u32` delays; every reachable
value is at most 120, far below the `u32` bound). -/
structure ExponentialBackoff where
  current_delay : Nat
  max_delay : Nat
  min_delay : Nat
  deriving DecidableEq

/-- `ExponentialBackoff::new`. -/
def ExponentialBackoff.new : ExponentialBackoff :=
  { current_delay := 1, max_delay := 60, min_delay := 1 }

/-- `ExponentialBackoff::next_delay`: returns the current delay and doubles
it, capped at `max_delay`. -/
def ExponentialBackoff.next_delay (b : ExponentialBackoff) : Nat × ExponentialBackoff :=
  (b.current_delay, { b with current_delay := min (b.current_delay * 2) b.max_delay })

/-- `ExponentialBackoff.reset`: back to the minimum delay. -/
def ExponentialBackoff.reset (b : ExponentialBackoff) : ExponentialBackoff :=
  { b with current_delay := b.min_delay }

/-- A call against the backoff: `next_delay` or `reset`. -/
inductive BackoffOp where
  | next
  | reset
  deriving DecidableEq

/-- Runs a call sequence against a backoff, collecting every value
`next_delay` returns. -/
def runBackoff : ExponentialBackoff → List BackoffOp → List Nat × ExponentialBackoff
  | b, [] => ([], b)
  | b, BackoffOp.next :: ops =>
    let (d, b') := b.next_delay
    let (ds, bf) := runBackoff b' ops
    (d :: ds, bf)
  | b, BackoffOp.reset :: ops => runBackoff b.reset ops

/-- `relay.rs`: the connection state. -/
inductive ConnectionState where
  | Disconnected
  | Connecting
  | Connected
  deriving DecidableEq

/-- `relay.rs`: the parts of `RelayConnection` the connect/reconnect logic
touches (`ws` records whether a socket handle is held; the stored event
handlers carry no state of their own). -/
structure RelayConnection where
  url : String
  ws : Bool
  state : ConnectionState
  backoff : ExponentialBackoff
  last_connect_attempt : Int
  deriving DecidableEq

/-- `RelayConnection::new`. -/
def RelayConnection.new (url : String) : RelayConnection :=
  { url := url, ws := false, state := ConnectionState.Disconnected,
    backoff := ExponentialBackoff.new, last_connect_attempt := 0 }

/-- `RelayConnection::connect`: a no-op when already `Connecting` or
`Connected`; otherwise records the attempt, switches to `Connecting` and
constructs the socket.  `ws_new` is the outcome of `WebSocket::new`
(`none` = success, `some e` = the constructor threw `e`); on failure the
`?` operator returns the error with the state already at `Connecting`. -/
def RelayConnection.connect (c : RelayConnection) (now : Int)
    (ws_new : Option CoreError) : RelayConnection × Option CoreError :=
  if c.state == ConnectionState.Connecting || c.state == ConnectionState.Connected then
    (c, none)
  else
    let c := { c with state := ConnectionState.Connecting, last_connect_attempt := now }
    match ws_new with
    | some e => (c, some e)
    | none => ({ c with ws := true }, none)

/-- The `onopen` closure `connect` installs: it only flips the state to
`Connected` (it does not touch the backoff). -/
def RelayConnection.handleOpen (c : RelayConnection) : RelayConnection :=
  { c with state := ConnectionState.Connected }

/-- `RelayConnection::on_open` (a public method of the source that no code
in the repository calls): flips to `Connected` and resets the backoff. -/
def RelayConnection.on_open (c : RelayConnection) : RelayConnection :=
  { c with state := ConnectionState.Connected, backoff := c.backoff.reset }

/-- `RelayConnection::needs_reconnect`: never when `Connected`, otherwise
once the current backoff delay has elapsed since the last attempt. -/
def RelayConnection.needs_reconnect (c : RelayConnection) (now : Int) : Bool :=
  if c.state == ConnectionState.Connected then false
  else (c.backoff.current_delay : Int) ≤ now - c.last_connect_attempt

/-- `types.rs`: one row of the UI feed. -/
structure UiRow where
  id : String
  kind : Nat
  pubkey : String
  created_at : Int
  content : String
  image_url : Option String
  deriving DecidableEq

/-- The state `CoreHandle::tick` reads and writes, restricted to the
components the relay-message dispatch and the outbox step touch.
`save_event` is the outcome of `storage.save_event(id, json)` for the
`dyn Storage` the handle was built with (`none` = success; `MockStorage`
always succeeds, the IndexedDB adapter can fail); the outbox table
`outbox_storage` follows `MockStorage`. -/
structure CoreState where
  save_event : String → Json → Option CoreError
  now : Int
  sub_mgr : SubscriptionManager
  outbox_pending : List OutboxItem
  outbox_storage : List OutboxItem
  event_buffer : List UiRow

/-- `CoreHandle::process_relay_message`: dispatches one drained frame,
returning the updated state and the error, if any, that `?` would
propagate out of `tick`.  Mutations already performed stay in the state
even when an error is returned, as they do in the source. -/
def processRelayMessage (st : CoreState) (msg : RelayMessage) :
    CoreState × Option CoreError :=
  match msg with
  | .Event _ event_json =>
    let event_id := (event_json.getField "id").asStr.getD ""
    match st.save_event event_id event_json with
    | some e => (st, some e)
    | none =>
      let row : UiRow :=
        { id := event_id,
          kind := ((event_json.getField "kind").asU64.getD 0) % 65536,
          pubkey := (event_json.getField "pubkey").asStr.getD "",
          created_at := (event_json.getField "created_at").asI64.getD 0,
          content := (event_json.getField "content").asStr.getD "",
          image_url := none }
      ({ st with event_buffer := st.event_buffer ++ [row] }, none)
  | .Eose sub_id =>
    let m := st.sub_mgr.mark_eose sub_id
    let m :=
      if m.needs_extension sub_id then
        match m.extend_window sub_id st.now with
        | some (m2, _) => m2
        | none => m
      else m
    ({ st with sub_mgr := m }, none)
  | .Ok event_id accepted message =>
    let r :=
      if accepted then OutboxQueue.on_ok st.outbox_pending st.outbox_storage event_id true ""
      else OutboxQueue.on_ok st.outbox_pending st.outbox_storage event_id false message
    ({ st with outbox_pending := r.1, outbox_storage := r.2 }, none)
  | .Notice _ => (st, none)

/-- The dispatch loop of `CoreHandle::tick` over the messages drained this
tick: processes them in order and stops at the first error (the `?` in the
source). -/
def tickDispatch : CoreState → List RelayMessage → CoreState × Option CoreError
  | st, [] => (st, none)
  | st, msg :: rest =>
    match processRelayMessage st msg with
    | (st', none) => tickDispatch st' rest
    | (st', some e) => (st', some e)

/-- `CoreHandle::tick`, restricted to the message dispatch and the outbox
step (the reconnect sweep touches only relay-internal state): dispatches
the drained messages, then, unless dispatch failed, peeks the outbox via
`dequeue` and broadcasts the `["EVENT", ...]` frame returned here.  The
result is the final state, the error `tick` returns, and the broadcast
frame, if any. -/
def tick (st : CoreState) (drained : List RelayMessage) :
    CoreState × Option CoreError × Option String :=
  match tickDispatch st drained with
  | (st', some e) => (st', some e, none)
  | (st', none) =>
    match OutboxQueue.dequeue st'.outbox_pending with
    | some event_json => (st', none, some ("[\"EVENT\"," ++ event_json ++ "]"))
    | none => (st', none, none)

/-! ## Helper lemmas -/

theorem strData_append (a b : String) : (a ++ b).data = a.data ++ b.data := by
  cases a
  cases b
  rfl

theorem strMk_data (s : String) : String.mk s.data = s := by
  cases s
  rfl

theorem alistLookup_insert_self {α : Type} (l : List (String × α)) (k : String) (v : α) :
    alistLookup (alistInsert l k v) k = some v := by
  induction l with
  | nil => simp [alistInsert, alistLookup]
  | cons p rest ih =>
    obtain ⟨k0, v0⟩ := p
    by_cases h : k0 = k
    · simp [alistInsert, alistLookup, h]
    · simp [alistInsert, alistLookup, h, ih]

theorem alistLookup_insert_ne {α : Type} (l : List (String × α)) (k k' : String) (v : α)
    (h : k' ≠ k) : alistLookup (alistInsert l k' v) k = alistLookup l k := by
  induction l with
  | nil => simp [alistInsert, alistLookup, h]
  | cons p rest ih =>
    obtain ⟨k0, v0⟩ := p
    by_cases h0 : k0 = k'
    · subst h0
      simp [alistInsert, alistLookup, h]
    · by_cases h1 : k0 = k
      · simp [alistInsert, alistLookup, h0, h1, Ne.symm h]
      · simp [alistInsert, alistLookup, h0, h1, ih]

theorem takeWhile_all {p : Char → Bool} : ∀ l : List Char, l.all p = true →
    l.takeWhile p = l := by
  intro l
  induction l with
  | nil => intro _; rfl
  | cons c rest ih =>
    intro h
    simp only [List.all_cons, Bool.and_eq_true] at h
    simp [List.takeWhile, h.1, ih h.2]

theorem takeWhile_append_stop {p : Char → Bool} (c : Char) (hc : p c = false)
    (l₂ : List Char) : ∀ l₁ : List Char, l₁.all p = true →
    (l₁ ++ c :: l₂).takeWhile p = l₁ := by
  intro l₁
  induction l₁ with
  | nil => intro _; simp [List.takeWhile, hc]
  | cons a rest ih =>
    intro h
    simp only [List.all_cons, Bool.and_eq_true] at h
    simp [List.takeWhile, h.1, ih h.2]

theorem dm_peer_extract (peer : String) (h : peer.data.all (fun c => c != ':') = true) :
    strTakeWhile (strDrop ("dm:" ++ peer) 3) (fun c => c != ':') = peer := by
  unfold strTakeWhile strDrop
  rw [strData_append]
  show String.mk (List.takeWhile _ peer.data) = peer
  rw [takeWhile_all peer.data h]

theorem dmr_peer_extract (peer : String) (h : peer.data.all (fun c => c != ':') = true) :
    strTakeWhile (strDrop ("dm:" ++ peer ++ ":r") 3) (fun c => c != ':') = peer := by
  unfold strTakeWhile strDrop
  rw [strData_append, strData_append, List.append_assoc]
  show String.mk (List.takeWhile _ (peer.data ++ ':' :: 'r' :: [])) = peer
  rw [takeWhile_append_stop ':' rfl _ peer.data h]

theorem isPrefixOf_append {α : Type} [BEq α] [LawfulBEq α] (l₁ l₂ : List α) :
    l₁.isPrefixOf (l₁ ++ l₂) = true := by
  induction l₁ with
  | nil => simp [List.isPrefixOf]
  | cons a l ih => simp [List.isPrefixOf, List.cons_append, ih]

theorem isPrefixOf_cons_ne {α : Type} [BEq α] (a b : α) (l₁ l₂ : List α)
    (h : (a == b) = false) : (a :: l₁).isPrefixOf (b :: l₂) = false := by
  simp [List.isPrefixOf, h]

theorem strLit_dm_data : ("dm:" : String).data = 'd' :: 'm' :: ':' :: [] := rfl

theorem strLit_channel_data :
    ("channel:" : String).data =
      'c' :: 'h' :: 'a' :: 'n' :: 'n' :: 'e' :: 'l' :: ':' :: [] := rfl

theorem strLit_r_data : (":r" : String).data = ':' :: 'r' :: [] := rfl

theorem startsWith_dm (peer : String) : strStartsWith ("dm:" ++ peer) "dm:" = true := by
  unfold strStartsWith
  rw [strData_append]
  exact isPrefixOf_append _ _

theorem dm_not_channel (peer : String) :
    strStartsWith ("dm:" ++ peer) "channel:" = false := by
  unfold strStartsWith
  rw [strData_append, strLit_dm_data, strLit_channel_data]
  simp only [List.cons_append]
  exact isPrefixOf_cons_ne _ _ _ _ (by decide)

theorem dmr_startsWith_dm (peer : String) :
    strStartsWith ("dm:" ++ peer ++ ":r") "dm:" = true := by
  unfold strStartsWith
  rw [strData_append, strData_append, List.append_assoc]
  exact isPrefixOf_append _ _

theorem dmr_not_channel (peer : String) :
    strStartsWith ("dm:" ++ peer ++ ":r") "channel:" = false := by
  unfold strStartsWith
  rw [strData_append, strData_append, List.append_assoc, strLit_dm_data,
    strLit_channel_data]
  simp only [List.cons_append]
  exact isPrefixOf_cons_ne _ _ _ _ (by decide)

theorem dm_sub_ids_ne (peer : String) :
    ("dm:" ++ peer : String) ≠ "dm:" ++ peer ++ ":r" := by
  intro h
  have h2 := congrArg String.data h
  rw [strData_append, strData_append, strData_append] at h2
  have h3 := congrArg List.length h2
  rw [strLit_dm_data, strLit_r_data] at h3
  simp only [List.length_append, List.length_cons, List.length_nil] at h3
  omega

/-! ## Claims -/

/-- C1: the spec promises that a channel opened via `open_channel` widens
its window on the first EOSE (`extend_window` returning the rewritten REQ
with `since` lowered by 3600), but `open_channel` registers the
subscription id `ch:{channel_id}` while `extend_window` only recognises
ids starting with `"channel:"` (or `"dm:"`), so for the registered id the
widening never fires: opening channel `"x"` at `t = 1000` registers
`"ch:x"` with `since = 400`, and after the first `mark_eose` the call
`extend_window "ch:x"` returns `none` instead of the promised REQ with
`since = -3200`. -/
theorem channel_extension_never_fires :
    (SubscriptionManager.new.open_channel "x" 1000).2 = [("ch:x", channelFilter "x" 400)] ∧
    (alistLookup ((SubscriptionManager.new.open_channel "x" 1000).1.mark_eose
        "ch:x").active_subs "ch:x").map ActiveSub.eose_count = some 1 ∧
    ((SubscriptionManager.new.open_channel "x" 1000).1.mark_eose "ch:x").extend_window
        "ch:x" 1001 = none :=
  ⟨rfl, rfl, rfl⟩

/-- C4, failing evaluation: the claim says the reconnect delay doubles on
every failed connect attempt and is reset by the installed `onopen`
handler, but `connect` never advances the backoff — after a failed
`WebSocket::new` the delay is still 1 (not 2), the state is stuck at
`Connecting` so a second attempt is a no-op, `needs_reconnect` still
compares against 1 second (the claimed doubling would make it false at
1 second elapsed), and the installed `onopen` closure does not touch the
backoff (the `on_open` method that would reset it is never called). -/
theorem failed_connect_leaves_backoff_unchanged :
    ((RelayConnection.new "wss://r").connect 0 (some (CoreError.JsError "boom"))).2 =
      some (CoreError.JsError "boom") ∧
    ((RelayConnection.new "wss://r").connect 0
        (some (CoreError.JsError "boom"))).1.backoff.current_delay = 1 ∧
    ((RelayConnection.new "wss://r").connect 0
        (some (CoreError.JsError "boom"))).1.state = ConnectionState.Connecting ∧
    (((RelayConnection.new "wss://r").connect 0
        (some (CoreError.JsError "boom"))).1.connect 5 (some (CoreError.JsError "boom"))) =
      (((RelayConnection.new "wss://r").connect 0 (some (CoreError.JsError "boom"))).1,
       none) ∧
    ((RelayConnection.new "wss://r").connect 0
        (some (CoreError.JsError "boom"))).1.needs_reconnect 1 = true ∧
    ((RelayConnection.new "wss://r").connect 0
        (some (CoreError.JsError "boom"))).1.handleOpen.backoff.current_delay = 1 := by
  refine ⟨rfl, rfl, rfl, rfl, ?_, rfl⟩
  decide

/-- C5, counterexample: `needs_extension` is claimed to hold iff
`eose_count ∈ {1,2,3,4}`, but on a freshly opened channel subscription
(`eose_count = 0`, not in that set) it already returns `true`. -/
theorem needs_extension_true_at_zero_eose :
    (SubscriptionManager.new.open_channel "x" 1000).1.needs_extension "ch:x" = true ∧
    (alistLookup (SubscriptionManager.new.open_channel "x" 1000).1.active_subs
        "ch:x").map ActiveSub.eose_count = some 0 :=
  ⟨rfl, rfl⟩

/-- C5, amended: `needs_extension(sub_id)` returns `true` iff the
subscription is tracked and its `eose_count` is below 4, i.e. in
`{0, 1, 2, 3}`; for an untracked `sub_id` it returns `false`. -/
theorem needs_extension_iff_tracked_and_lt_four (m : SubscriptionManager) (sub_id : String) :
    m.needs_extension sub_id = true ↔
      ∃ sub, alistLookup m.active_subs sub_id = some sub ∧ sub.eose_count < 4 := by
  unfold SubscriptionManager.needs_extension SubscriptionManager.should_extend_window
  cases h : alistLookup m.active_subs sub_id with
  | none => simp [h]
  | some sub => simp [h]

/-- C7, counterexample: the claim says a three-element `["OK", event_id,
accepted]` frame parses with an empty message, but `RelayMessage::parse`
requires at least four elements and rejects it with a parse error. -/
theorem parse_ok_three_elements_rejected :
    RelayMessage.parse (Json.arr [Json.str "OK", Json.str "e1", Json.bool true]) =
      Except.error (CoreError.ParseError "Invalid OK message") :=
  rfl

/-- C7, amended: an OK frame needs at least four elements — a three-element
`["OK", event_id, accepted]` is rejected with `ParseError "Invalid OK
message"`; when a fourth element is present, a string message is carried
through and a non-string one (e.g. `null`) defaults to `""`. -/
theorem parse_ok_message_element (event_id message : String) (accepted : Bool) :
    RelayMessage.parse (Json.arr [Json.str "OK", Json.str event_id, Json.bool accepted]) =
      Except.error (CoreError.ParseError "Invalid OK message") ∧
    RelayMessage.parse (Json.arr [Json.str "OK", Json.str event_id, Json.bool accepted,
        Json.str message]) =
      Except.ok (RelayMessage.Ok event_id accepted message) ∧
    RelayMessage.parse (Json.arr [Json.str "OK", Json.str event_id, Json.bool accepted,
        Json.null]) =
      Except.ok (RelayMessage.Ok event_id accepted "") :=
  ⟨rfl, rfl, rfl⟩

/-- Every delay `next_delay` ever returns from a backoff whose current
delay is within the cap (with the constructor's `max_delay = 60`,
`min_delay = 1`) stays within the cap. -/
theorem runBackoff_outputs_le (ops : List BackoffOp) :
    ∀ b : ExponentialBackoff, b.current_delay ≤ 60 → b.max_delay = 60 → b.min_delay = 1 →
    ∀ d ∈ (runBackoff b ops).1, d ≤ 60 := by
  induction ops with
  | nil =>
    intro b _ _ _ d hd
    simp [runBackoff] at hd
  | cons op rest ih =>
    intro b h1 h2 h3 d hd
    cases op with
    | next =>
      simp only [runBackoff, ExponentialBackoff.next_delay, List.mem_cons] at hd
      rcases hd with h | h
      · omega
      · refine ih _ ?_ ?_ ?_ d h
        · show min (b.current_delay * 2) b.max_delay ≤ 60
          rw [h2]
          exact min_le_right _ _
        · exact h2
        · exact h3
    | reset =>
      simp only [runBackoff] at hd
      refine ih _ ?_ ?_ ?_ d hd
      · show b.min_delay ≤ 60
        omega
      · exact h2
      · exact h3

/-- C10: starting from a fresh backoff, the call sequence `next, next,
next, reset, next` returns `[1, 2, 4, 1]`, and every value `next_delay`
ever returns along any call sequence is at most 60. -/
theorem backoff_sequence_and_cap :
    (runBackoff ExponentialBackoff.new
        [BackoffOp.next, BackoffOp.next, BackoffOp.next, BackoffOp.reset,
         BackoffOp.next]).1 = [1, 2, 4, 1] ∧
    ∀ ops : List BackoffOp,
      ((runBackoff ExponentialBackoff.new ops).1.all (fun d => d ≤ 60)) = true := by
  refine ⟨rfl, fun ops => ?_⟩
  simp only [List.all_eq_true, decide_eq_true_eq]
  intro d hd
  exact runBackoff_outputs_le ops ExponentialBackoff.new (by decide) rfl rfl d hd

/-- A storage whose `save_event` fails for event id `"a"` (the handle's
`dyn Storage` may be the IndexedDB adapter, whose writes can fail). -/
def c2SaveEvent : String → Json → Option CoreError :=
  fun id _ => if id = "a" then some (CoreError.StorageError "save failed") else none

/-- A core state over that storage with nothing else pending. -/
def c2State : CoreState :=
  { save_event := c2SaveEvent, now := 0, sub_mgr := SubscriptionManager.new,
    outbox_pending := [], outbox_storage := [], event_buffer := [] }

/-- An inbound EVENT whose save fails in `c2State`. -/
def c2EvA : RelayMessage := RelayMessage.Event "s" (Json.obj [("id", Json.str "a")])

/-- An inbound EVENT whose dispatch would append a feed row in `c2State`. -/
def c2EvB : RelayMessage :=
  RelayMessage.Event "s" (Json.obj [("id", Json.str "b"), ("content", Json.str "hello")])

/-- C2, counterexample: with a storage whose `save_event` fails on the
first drained EVENT, the dispatch loop of `tick` returns that
`StorageError` and the second drained EVENT of the same batch is never
dispatched (the feed buffer stays empty), although dispatching it alone
would append a row — so a failure on one message does prevent processing
the rest of the tick. -/
theorem dispatch_abort_counterexample :
    (tickDispatch c2State [c2EvA, c2EvB]).2 = some (CoreError.StorageError "save failed") ∧
    (tickDispatch c2State [c2EvA, c2EvB]).1.event_buffer = [] ∧
    (processRelayMessage c2State c2EvB).1.event_buffer.length = 1 :=
  ⟨rfl, rfl, rfl⟩

/-- C2, amended: the dispatch loop of `tick` is not total — it stops at
the first message whose dispatch fails: whenever dispatching the batch
`ms₁ ++ [m]` ends in an error, the messages drained after `m` in the same
tick are ignored (the loop on `ms₁ ++ m :: ms₂` returns exactly the state
and error of the loop on `ms₁ ++ [m]`, and `tick` then returns the error
without reaching the outbox step). -/
theorem tickDispatch_stops_at_first_error :
    ∀ (ms₁ : List RelayMessage) (st : CoreState) (m : RelayMessage)
      (ms₂ : List RelayMessage),
    (tickDispatch st (ms₁ ++ [m])).2.isSome = true →
    tickDispatch st (ms₁ ++ m :: ms₂) = tickDispatch st (ms₁ ++ [m]) := by
  intro ms₁
  induction ms₁ with
  | nil =>
    intro st m ms₂ h
    simp only [List.nil_append] at h ⊢
    cases hp : processRelayMessage st m with
    | mk st' e =>
      cases e with
      | none =>
        rw [show tickDispatch st [m] = (st', none) from by simp [tickDispatch, hp]] at h
        simp at h
      | some err =>
        simp [tickDispatch, hp]
  | cons x rest ih =>
    intro st m ms₂ h
    simp only [List.cons_append] at h ⊢
    cases hp : processRelayMessage st x with
    | mk st' e =>
      cases e with
      | none =>
        have h' : (tickDispatch st' (rest ++ [m])).2.isSome = true := by
          rw [show tickDispatch st (x :: (rest ++ [m])) = tickDispatch st' (rest ++ [m])
              from by simp [tickDispatch, hp]] at h
          exact h
        rw [show tickDispatch st (x :: (rest ++ m :: ms₂)) =
              tickDispatch st' (rest ++ m :: ms₂) from by simp [tickDispatch, hp],
            show tickDispatch st (x :: (rest ++ [m])) = tickDispatch st' (rest ++ [m])
              from by simp [tickDispatch, hp]]
        exact ih st' m ms₂ h'
      | some err =>
        simp [tickDispatch, hp]

/-- C2, witness: the abort theorem applied to the concrete failing batch
of the counterexample state. -/
theorem tickDispatch_stops_witness :
    tickDispatch c2State ([] ++ c2EvA :: [c2EvB]) =
      tickDispatch c2State ([] ++ [c2EvA]) :=
  tickDispatch_stops_at_first_error [] c2State c2EvA [c2EvB] rfl

/-- An outbox item whose serialised event mentions event id `"e1"`. -/
def c3Item : OutboxItem :=
  { req_id := "r1", event_json := "event e1 body", status := OutboxStatus.Queued,
    last_try_at := 7, retry_count := 0, error := none }

/-- C3, counterexample: a positive OK for `"e1"` empties the in-memory
queue, but the Storage outbox table still contains the item, merely with
its status set to `Ok` — it is not deleted, contradicting the claimed
absence from Storage. -/
theorem on_ok_storage_retains_item :
    (OutboxQueue.on_ok [c3Item] [c3Item] "e1" true "").1 = [] ∧
    (OutboxQueue.on_ok [c3Item] [c3Item] "e1" true "").2 =
      [{ c3Item with status := OutboxStatus.Ok }] :=
  ⟨rfl, rfl⟩

/-- `update_outbox_status` sets the status of every stored item bearing
`req_id` when at most one such item exists (it only touches the first
match). -/
theorem update_outbox_status_unique (rid : String) (s : OutboxStatus) :
    ∀ l : List OutboxItem, l.countP (fun it => it.req_id == rid) ≤ 1 →
    ∀ it ∈ update_outbox_status l rid s, it.req_id = rid → it.status = s := by
  intro l
  induction l with
  | nil =>
    intro _ it hit
    simp [update_outbox_status] at hit
  | cons x rest ih =>
    intro h it hit hr
    rw [List.countP_cons] at h
    by_cases hx : x.req_id = rid
    · rw [show update_outbox_status (x :: rest) rid s = { x with status := s } :: rest
          from by simp [update_outbox_status, hx]] at hit
      rcases List.mem_cons.mp hit with h1 | h1
      · rw [h1]
      · exfalso
        have hx' : (x.req_id == rid) = true := by simp [hx]
        simp only [hx', if_true] at h
        have h0 : rest.countP (fun it => it.req_id == rid) = 0 := by omega
        have := List.countP_eq_zero.mp h0 it h1
        simp [hr] at this
    · rw [show update_outbox_status (x :: rest) rid s = x :: update_outbox_status rest rid s
          from by simp [update_outbox_status, hx]] at hit
      rcases List.mem_cons.mp hit with h1 | h1
      · exact absurd (h1 ▸ hr) hx
      · refine ih ?_ it h1 hr
        have hx' : (x.req_id == rid) = false := by simp [hx]
        simp only [hx', if_false] at h
        omega

/-- C3, amended: on a positive OK the matching item is removed from the
in-memory queue, but in Storage it is only marked `Ok`: it remains in the
outbox table with status `Ok` and is merely excluded from
`get_pending_outbox` (the uniqueness hypothesis reflects the spec's
"req_id is unique" invariant). -/
theorem on_ok_accepted_removes_and_marks_ok
    (pending storage : List OutboxItem) (event_id message req_id : String)
    (hfind : findReqId pending event_id = some req_id)
    (huniq : storage.countP (fun it => it.req_id == req_id) ≤ 1) :
    (∀ it ∈ (OutboxQueue.on_ok pending storage event_id true message).1,
        it.req_id ≠ req_id) ∧
    (∀ it ∈ (OutboxQueue.on_ok pending storage event_id true message).2,
        it.req_id = req_id → it.status = OutboxStatus.Ok) ∧
    (∀ it ∈ get_pending_outbox
        (OutboxQueue.on_ok pending storage event_id true message).2,
        it.req_id ≠ req_id) := by
  have heq : OutboxQueue.on_ok pending storage event_id true message =
      (pending.filter (fun item => item.req_id != req_id),
       update_outbox_status storage req_id OutboxStatus.Ok) := by
    unfold OutboxQueue.on_ok
    rw [hfind]
    rfl
  rw [heq]
  refine ⟨?_, ?_, ?_⟩
  · intro it hit
    have := (List.mem_filter.mp hit).2
    simpa using this
  · intro it hit hr
    exact update_outbox_status_unique req_id OutboxStatus.Ok storage huniq it hit hr
  · intro it hit hr
    have hit' := List.mem_filter.mp hit
    have hok := update_outbox_status_unique req_id OutboxStatus.Ok storage huniq it
      hit'.1 hr
    rw [hok] at hit'
    simp at hit'

/-- C3, witness: the amended theorem applied to the counterexample's
queue. -/
theorem on_ok_accepted_witness :
    (∀ it ∈ (OutboxQueue.on_ok [c3Item] [c3Item] "e1" true "").1,
        it.req_id ≠ "r1") ∧
    (∀ it ∈ (OutboxQueue.on_ok [c3Item] [c3Item] "e1" true "").2,
        it.req_id = "r1" → it.status = OutboxStatus.Ok) ∧
    (∀ it ∈ get_pending_outbox (OutboxQueue.on_ok [c3Item] [c3Item] "e1" true "").2,
        it.req_id ≠ "r1") :=
  on_ok_accepted_removes_and_marks_ok [c3Item] [c3Item] "e1" "" "r1" rfl (by decide)

/-- An outbox item over budget (`retry_count = MAX_RETRY_COUNT`) that was
just marked `Sent`. -/
def c6Item : OutboxItem :=
  { req_id := "r6", event_json := "event e6 body", status := OutboxStatus.Sent,
    last_try_at := 100, retry_count := 5, error := none }

/-- C6, counterexample: at `now = 100` (elapsed 0 since `last_try_at`),
`process` defers the over-budget `Sent` item unchanged — it is neither
dropped nor marked `Error`, and the storage table is untouched,
contradicting the claim that the retry-budget check applies first. -/
theorem process_defers_sent_item_over_budget :
    OutboxQueue.process 100 [] [c6Item] [c6Item] = ([c6Item], [c6Item]) ∧
    MAX_RETRY_COUNT ≤ c6Item.retry_count ∧
    c6Item.status ≠ OutboxStatus.Error := by
  refine ⟨rfl, ?_, ?_⟩ <;> decide

/-- C6, amended (single-item queue): `process` applies the Sent-defer
check first — an item with `status = Sent` and `now − last_try_at <
RETRY_DELAY_SECONDS` is deferred unchanged regardless of `retry_count`;
the retry-budget check (dropping the item and persisting `Error`) applies
only when the defer check does not fire. -/
theorem process_defer_check_applies_first
    (now : Int) (relays : List RelayEndpoint) (storage : List OutboxItem)
    (item : OutboxItem) :
    (item.status = OutboxStatus.Sent → now - item.last_try_at < RETRY_DELAY_SECONDS →
      OutboxQueue.process now relays [item] storage = ([item], storage)) ∧
    ((item.status = OutboxStatus.Sent → RETRY_DELAY_SECONDS ≤ now - item.last_try_at) →
      MAX_RETRY_COUNT ≤ item.retry_count →
      OutboxQueue.process now relays [item] storage =
        ([], update_outbox_status storage item.req_id OutboxStatus.Error)) := by
  constructor
  · intro hs hlt
    have hcond : (item.status == OutboxStatus.Sent &&
        decide (now - item.last_try_at < RETRY_DELAY_SECONDS)) = true := by
      simp [hs, hlt]
    simp [OutboxQueue.process, processLoop, hcond]
  · intro hns hbudget
    have hcond : (item.status == OutboxStatus.Sent &&
        decide (now - item.last_try_at < RETRY_DELAY_SECONDS)) = false := by
      by_cases hs : item.status = OutboxStatus.Sent
      · have hge := hns hs
        simp only [hs, beq_self_eq_true, Bool.true_and, decide_eq_false_iff_not]
        omega
      · simp [hs]
    simp [OutboxQueue.process, processLoop, hcond, hbudget]

/-- C6, witness: the amended theorem at the counterexample item, once
within the defer window and once outside it. -/
theorem process_defer_first_witness :
    OutboxQueue.process 100 [] [c6Item] [c6Item] = ([c6Item], [c6Item]) ∧
    OutboxQueue.process 200 [] [c6Item] [c6Item] =
      ([], update_outbox_status [c6Item] "r6" OutboxStatus.Error) :=
  ⟨(process_defer_check_applies_first 100 [] [c6Item] c6Item).1 rfl (by decide),
   (process_defer_check_applies_first 200 [] [c6Item] c6Item).2 (fun _ => by decide)
     (by decide)⟩

/-- Dispatching any non-OK frame leaves both outbox components of the
state untouched. -/
theorem processRelayMessage_preserves_outbox (st : CoreState) (msg : RelayMessage)
    (h : ∀ id acc m, msg ≠ RelayMessage.Ok id acc m) :
    (processRelayMessage st msg).1.outbox_pending = st.outbox_pending ∧
    (processRelayMessage st msg).1.outbox_storage = st.outbox_storage := by
  cases msg with
  | Event sid ej =>
    cases hs : st.save_event ((ej.getField "id").asStr.getD "") ej with
    | none => simp [processRelayMessage, hs]
    | some e => simp [processRelayMessage, hs]
  | Eose sid => simp [processRelayMessage]
  | Ok id acc msg => exact absurd rfl (h id acc msg)
  | Notice msg => simp [processRelayMessage]

/-- The dispatch loop preserves the outbox when no drained frame is an OK
(also when it aborts early on an error). -/
theorem tickDispatch_preserves_outbox :
    ∀ (drained : List RelayMessage) (st : CoreState),
    (∀ msg ∈ drained, ∀ id acc m, msg ≠ RelayMessage.Ok id acc m) →
    (tickDispatch st drained).1.outbox_pending = st.outbox_pending ∧
    (tickDispatch st drained).1.outbox_storage = st.outbox_storage := by
  intro drained
  induction drained with
  | nil =>
    intro st _
    exact ⟨rfl, rfl⟩
  | cons x rest ih =>
    intro st h
    have hx := processRelayMessage_preserves_outbox st x (h x (List.mem_cons_self x rest))
    cases hp : processRelayMessage st x with
    | mk st' e =>
      rw [hp] at hx
      have hx1 : st'.outbox_pending = st.outbox_pending := hx.1
      have hx2 : st'.outbox_storage = st.outbox_storage := hx.2
      cases e with
      | none =>
        have hr := ih st' (fun msg hm => h msg (List.mem_cons_of_mem x hm))
        rw [show tickDispatch st (x :: rest) = tickDispatch st' rest from by
          simp [tickDispatch, hp]]
        exact ⟨hr.1.trans hx1, hr.2.trans hx2⟩
      | some err =>
        rw [show tickDispatch st (x :: rest) = (st', some err) from by
          simp [tickDispatch, hp]]
        exact ⟨hx1, hx2⟩

/-- C8: `tick` never mutates outbox items — `dequeue` is a pure peek and
the tick path invokes neither `process` nor any status update: whenever
the head of the pending queue is `Queued` and the drained batch contains
no OK frame, a `tick` leaves the pending queue and the outbox table
exactly as they were (so the head keeps its status, `retry_count` and
`last_try_at`), and, unless dispatch aborted, broadcasts exactly the
`["EVENT", event_json]` frame of that unchanged head — so every further
such tick rebroadcasts the identical frame until an OK arrives. -/
theorem tick_preserves_outbox_and_rebroadcasts (st : CoreState) (hd : OutboxItem)
    (rest : List OutboxItem) (drained : List RelayMessage)
    (hpend : st.outbox_pending = hd :: rest)
    (hq : hd.status = OutboxStatus.Queued)
    (hnok : ∀ msg ∈ drained, ∀ id acc m, msg ≠ RelayMessage.Ok id acc m) :
    (tick st drained).1.outbox_pending = hd :: rest ∧
    (tick st drained).1.outbox_storage = st.outbox_storage ∧
    ((tick st drained).2.1 = none →
      (tick st drained).2.2 = some ("[\"EVENT\"," ++ hd.event_json ++ "]")) := by
  have hp := tickDispatch_preserves_outbox drained st hnok
  cases hdisp : tickDispatch st drained with
  | mk st' e =>
    rw [hdisp] at hp
    have h1 : st'.outbox_pending = hd :: rest := hp.1.trans hpend
    have h2 : st'.outbox_storage = st.outbox_storage := hp.2
    cases e with
    | some err =>
      rw [show tick st drained = (st', some err, none) from by simp [tick, hdisp]]
      exact ⟨h1, h2, fun hnone => absurd hnone (by simp)⟩
    | none =>
      have hdq : OutboxQueue.dequeue st'.outbox_pending = some hd.event_json := by
        rw [h1]
        simp [OutboxQueue.dequeue, hq]
      rw [show tick st drained =
          (st', none, some ("[\"EVENT\"," ++ hd.event_json ++ "]")) from by
        simp [tick, hdisp, hdq]]
      exact ⟨h1, h2, fun _ => rfl⟩

/-- A core state holding one fresh `Queued` outbox item and nothing else. -/
def c8State : CoreState :=
  { save_event := fun _ _ => none, now := 0, sub_mgr := SubscriptionManager.new,
    outbox_pending := [c3Item], outbox_storage := [c3Item], event_buffer := [] }

/-- C8, witness: a tick with an empty drain over a queue holding one
`Queued` item leaves the queue and the table unchanged and broadcasts the
head's `["EVENT", ...]` frame. -/
theorem tick_preserves_outbox_witness :
    (tick c8State []).1.outbox_pending = [c3Item] ∧
    (tick c8State []).1.outbox_storage = c8State.outbox_storage ∧
    ((tick c8State []).2.1 = none →
      (tick c8State []).2.2 = some ("[\"EVENT\"," ++ c3Item.event_json ++ "]")) :=
  tick_preserves_outbox_and_rebroadcasts c8State c3Item [] [] rfl rfl
    (fun msg hm => absurd hm (List.not_mem_nil msg))

/-- `extend_window` on a `dm:`-prefixed sub id: subtracts the scheduled
amount from the peer's shared window and rewrites the stored filter. -/
theorem extend_window_dm (m : SubscriptionManager) (sid peer : String) (sub : ActiveSub)
    (w : TimeWindow) (a now : Int)
    (hch : strStartsWith sid "channel:" = false)
    (hdm : strStartsWith sid "dm:" = true)
    (hpe : strTakeWhile (strDrop sid 3) (fun c => c != ':') = peer)
    (hsub : alistLookup m.active_subs sid = some sub)
    (hext : extensionSeconds sub.eose_count = some a)
    (hw : alistLookup m.dm_windows peer = some w) :
    m.extend_window sid now =
      some ({ m with
              dm_windows := alistInsert m.dm_windows peer (w.extend a),
              active_subs := alistInsert m.active_subs sid
                ({ sub with
                   filter_json := sub.filter_json.setField "since"
                     (Json.num (w.since - a)),
                   last_extended_at := now }) },
            [(sid, sub.filter_json.setField "since" (Json.num (w.since - a)))]) := by
  unfold SubscriptionManager.extend_window SubscriptionManager.create_extended_filter
  rw [hsub]
  simp [hext, hch, hdm, hpe, hw, hsub, TimeWindow.extend]

/-- C9: `open_dm` keys one `TimeWindow` by peer, shared by the two halves
`dm:{peer}` and `dm:{peer}:r`; `extend_window` on either sub id subtracts
from that same window, so when both halves stand at the same EOSE stage
and are extended in turn, the shared `since` drops by twice the stage's
schedule amount. -/
theorem dm_shared_window_double_extension (m : SubscriptionManager) (peer : String)
    (sub1 sub2 : ActiveSub) (w : TimeWindow) (a now₁ now₂ : Int)
    (hpeer : peer.data.all (fun c => c != ':') = true)
    (h1 : alistLookup m.active_subs ("dm:" ++ peer) = some sub1)
    (h2 : alistLookup m.active_subs ("dm:" ++ peer ++ ":r") = some sub2)
    (hstage : sub2.eose_count = sub1.eose_count)
    (hext : extensionSeconds sub1.eose_count = some a)
    (hw : alistLookup m.dm_windows peer = some w) :
    ∃ m₁ pairs₁,
      m.extend_window ("dm:" ++ peer) now₁ = some (m₁, pairs₁) ∧
      alistLookup m₁.dm_windows peer = some { w with since := w.since - a } ∧
      ∃ m₂ pairs₂,
        m₁.extend_window ("dm:" ++ peer ++ ":r") now₂ = some (m₂, pairs₂) ∧
        alistLookup m₂.dm_windows peer = some { w with since := w.since - 2 * a } ∧
        pairs₂ = [("dm:" ++ peer ++ ":r",
          sub2.filter_json.setField "since" (Json.num (w.since - 2 * a)))] := by
  have e1 := extend_window_dm m ("dm:" ++ peer) peer sub1 w a now₁
    (dm_not_channel peer) (startsWith_dm peer) (dm_peer_extract peer hpeer) h1 hext hw
  have hsub2' : alistLookup (alistInsert m.active_subs ("dm:" ++ peer)
      ({ sub1 with
         filter_json := sub1.filter_json.setField "since" (Json.num (w.since - a)),
         last_extended_at := now₁ })) ("dm:" ++ peer ++ ":r") = some sub2 := by
    rw [alistLookup_insert_ne _ _ _ _ (dm_sub_ids_ne peer)]
    exact h2
  have hw2' : alistLookup (alistInsert m.dm_windows peer (w.extend a)) peer =
      some (w.extend a) := alistLookup_insert_self _ _ _
  have hext2 : extensionSeconds sub2.eose_count = some a := by
    rw [hstage]
    exact hext
  have e2 := extend_window_dm
    { m with
      dm_windows := alistInsert m.dm_windows peer (w.extend a),
      active_subs := alistInsert m.active_subs ("dm:" ++ peer)
        ({ sub1 with
           filter_json := sub1.filter_json.setField "since" (Json.num (w.since - a)),
           last_extended_at := now₁ }) }
    ("dm:" ++ peer ++ ":r") peer sub2 (w.extend a) a now₂
    (dmr_not_channel peer) (dmr_startsWith_dm peer) (dmr_peer_extract peer hpeer)
    hsub2' hext2 hw2'
  refine ⟨_, _, e1, alistLookup_insert_self _ _ _, _, _, e2, ?_, ?_⟩
  · rw [show TimeWindow.extend (w.extend a) a = { w with since := w.since - 2 * a } from by
      simp only [TimeWindow.extend]
      congr 1
      ring]
    exact alistLookup_insert_self _ _ _
  · rw [show (w.extend a).since - a = w.since - 2 * a from by
      simp only [TimeWindow.extend]
      ring]

/-- The manager after `open_dm "p"` at `t = 1000` and one EOSE on each
half. -/
def c9m : SubscriptionManager :=
  ((SubscriptionManager.new.open_dm "p" "me" 1000).1.mark_eose "dm:p").mark_eose "dm:p:r"

/-- The outgoing half of the DM subscription in `c9m`. -/
def c9sub1 : ActiveSub :=
  { sub_id := "dm:p", filter_json := dmFilterOut "p" "me" 400, eose_count := 1,
    last_extended_at := 1000 }

/-- The incoming half of the DM subscription in `c9m`. -/
def c9sub2 : ActiveSub :=
  { sub_id := "dm:p:r", filter_json := dmFilterIn "p" "me" 400, eose_count := 1,
    last_extended_at := 1000 }

/-- C9, witness: the shared-window theorem at the concrete manager `c9m`:
one stage-1 extension per half drops the shared `since` from 400 to
`400 − 2·3600`. -/
theorem dm_shared_window_witness :
    ∃ m₁ pairs₁,
      c9m.extend_window ("dm:" ++ "p") 1001 = some (m₁, pairs₁) ∧
      alistLookup m₁.dm_windows "p" =
        some { since := (400 : Int) - 3600, untilTs := none } ∧
      ∃ m₂ pairs₂,
        m₁.extend_window ("dm:" ++ "p" ++ ":r") 1002 = some (m₂, pairs₂) ∧
        alistLookup m₂.dm_windows "p" =
          some { since := (400 : Int) - 2 * 3600, untilTs := none } ∧
        pairs₂ = [("dm:" ++ "p" ++ ":r",
          c9sub2.filter_json.setField "since" (Json.num ((400 : Int) - 2 * 3600)))] :=
  dm_shared_window_double_extension c9m "p" c9sub1 c9sub2
    { since := 400, untilTs := none } 3600 1001 1002 (by decide) rfl rfl rfl rfl rfl

end Rustr
